import Mathlib

/-!
# Verification of the portfolio-assistant agent core

Shallow embedding, in Lean 4, of the agent orchestration core of the
`testAgent` repository (files `src/agent.js`, `src/calendarTools.js`,
`src/server.js`, `src/redismanagement.js`), together with theorems that
settle the specification claims about it.

Conventions of the embedding:
* JavaScript `Date` instants are modelled as integer counts (minutes or
  milliseconds since the Unix epoch, as noted at each definition).
* External capabilities (the mail transport, the Google calendar API, the
  language model, the Redis backend) are passed in as explicit parameters:
  an `Except String _` value models one awaited call that either resolves
  or throws, and an oracle function models the model capability.
* JavaScript strings are Lean `String`s; `String.prototype.includes` is
  modelled by `jsIncludes` below, and the specific regular expressions the
  source applies are modelled by dedicated scanner functions with the same
  match semantics on the inputs the source feeds them.
-/

namespace TestAgent

/-- `charsStartWith pat s`: the character list `pat` is an initial segment
of `s`. -/
def charsStartWith : List Char → List Char → Bool
  | [], _ => true
  | _ :: _, [] => false
  | p :: ps, c :: cs => p == c && charsStartWith ps cs

/-- `charsContain pat s`: `pat` occurs contiguously somewhere in `s`. -/
def charsContain (pat : List Char) : List Char → Bool
  | [] => charsStartWith pat []
  | c :: cs => charsStartWith pat (c :: cs) || charsContain pat cs

/-- Model of JavaScript `s.includes(sub)`: `sub` occurs as a contiguous
substring of `s` (the empty pattern always matches). -/
def jsIncludes (s sub : String) : Bool :=
  charsContain sub.data s.data

/-- Model of JavaScript string truthiness (`""` is falsy, anything else truthy),
used where the source tests a string field with `if (x)` or `x || y`. -/
def jsTruthy (s : String) : Bool := !s.data.isEmpty

/-- ASCII lower-casing of one character, as JavaScript `toLowerCase`
behaves on the ASCII inputs this program compares. -/
def jsCharToLower (c : Char) : Char :=
  if 'A' ≤ c ∧ c ≤ 'Z' then Char.ofNat (c.toNat + 32) else c

/-- Model of JavaScript `s.toLowerCase()` on ASCII strings. -/
def jsToLowerCase (s : String) : String :=
  String.mk (s.data.map jsCharToLower)

/-- Splits a character list at every occurrence of the separator character;
model of JavaScript `s.split(sep)` for a one-character separator. -/
def splitOnChar (sep : Char) : List Char → List (List Char)
  | [] => [[]]
  | c :: rest =>
    let r := splitOnChar sep rest
    if c = sep then [] :: r
    else
      match r with
      | [] => [[c]]
      | h :: t => (c :: h) :: t

/-- Leading decimal digits of a character list as a number; `none` when
there is no leading digit (JavaScript `parseInt` returning `NaN`). -/
def leadingDigitsVal (cs : List Char) : Option Nat :=
  let ds := cs.takeWhile Char.isDigit
  if ds.isEmpty then none
  else some (ds.foldl (fun acc c => acc * 10 + (c.toNat - 48)) 0)

/-- Model of JavaScript `parseInt(s)` on base-10 input: optional sign,
leading digits, trailing garbage ignored, `NaN` (here `none`) when no
digits lead. -/
def parseIntJs (s : String) : Option Int :=
  match s.data with
  | '-' :: rest => (leadingDigitsVal rest).map (fun n => -(n : Int))
  | '+' :: rest => (leadingDigitsVal rest).map (fun n => (n : Int))
  | cs => (leadingDigitsVal cs).map (fun n => (n : Int))

/-- JavaScript `a || b` on strings: `a` when truthy, else `b`. -/
def jsOrStr (a b : String) : String := if jsTruthy a then a else b

/-! ## Calendar model (`src/calendarTools.js`)

`checkAvailability` works at the granularity of calendar days and whole
hours.  A calendar day is a day index (days since the Unix epoch); an
instant is a count of minutes since the epoch.  Busy intervals arrive from
the free/busy capability as pairs of instants. -/

/-- One busy interval reported by the calendar free/busy capability,
in minutes since the epoch.  `stop` renders the source's `end` field. -/
structure BusyInterval where
  start : Int
  stop : Int
deriving DecidableEq, Repr

/-- One candidate slot pushed by `checkAvailability` into `availableTimes`:
`{date: dateString, startTime, endTime}`, with the date as a day index and
the times as whole hours. -/
structure TimeSlot where
  date : Nat
  startTime : Nat
  endTime : Nat
deriving DecidableEq, Repr

/-- JavaScript `Date.prototype.getDay` for a day index: day of week with
0 = Sunday, …, 6 = Saturday.  Day 0 (1970-01-01) was a Thursday. -/
def jsGetDay (d : Nat) : Nat := (d + 4) % 7

/-- The fixed offset `checkAvailability` appends when it builds slot
instants: `-08:00` for the default `America/Los_Angeles` zone (so the UTC
instant is the wall time plus 480 minutes), `+00:00` otherwise. -/
def slotZoneOffset (tzLA : Bool) : Int := if tzLA then 480 else 0

/-- Instant (minutes since epoch) of `hour:00` on day `d` as
`checkAvailability` constructs it from the date string and zone suffix. -/
def slotInstant (tzLA : Bool) (d : Nat) (hour : Nat) : Int :=
  (d * 1440 + hour * 60 : Int) + slotZoneOffset tzLA

/-- `busySlots.some(busy => …)` of `checkAvailability`: the candidate slot
`[slotStart, slotEnd)` conflicts with some busy interval.  The three
disjuncts are transcribed from the source. -/
def isSlotBusy (busySlots : List BusyInterval) (slotStart slotEnd : Int) : Bool :=
  busySlots.any fun busy =>
    (slotStart ≥ busy.start && slotStart < busy.stop) ||
    (slotEnd > busy.start && slotEnd ≤ busy.stop) ||
    (slotStart ≤ busy.start && slotEnd ≥ busy.stop)

/-- Inner `for (let hour = 9; hour < 17; hour++)` loop of
`checkAvailability` for one weekday `d`: the non-conflicting one-hour
slots of that day, in hour order. -/
def dayFreeSlots (tzLA : Bool) (busySlots : List BusyInterval) (d : Nat) : List TimeSlot :=
  (List.range' 9 8).filterMap fun hour =>
    if isSlotBusy busySlots (slotInstant tzLA d hour) (slotInstant tzLA d (hour + 1)) then
      none
    else
      some ⟨d, hour, hour + 1⟩

/-- Outer `while (currentDate <= endDateTime)` loop of `checkAvailability`:
walks the days from `current` to `endDay` inclusive, skipping Saturdays and
Sundays, accumulating the free slots of each remaining day. -/
def availLoop (tzLA : Bool) (busySlots : List BusyInterval) (current endDay : Nat) :
    List TimeSlot :=
  if current ≤ endDay then
    (if jsGetDay current ≠ 0 ∧ jsGetDay current ≠ 6 then
      dayFreeSlots tzLA busySlots current
    else []) ++ availLoop tzLA busySlots (current + 1) endDay
  else []
termination_by endDay + 1 - current

/-- Result object returned by `checkAvailability` (the `timeZone` echo is
omitted; it is the unchanged argument). -/
structure AvailabilityResult where
  available : Bool
  availableSlots : List TimeSlot
deriving DecidableEq, Repr

/-- `checkAvailability(startDate, endDate, timeZone)` of
`src/calendarTools.js`, after the free/busy capability has answered with
`busySlots`: scans the inclusive day range, collects non-conflicting
business-hour slots, reports whether any exist and the first five. -/
def checkAvailability (startDay endDay : Nat) (busySlots : List BusyInterval)
    (tzLA : Bool) : AvailabilityResult :=
  let availableTimes := availLoop tzLA busySlots startDay endDay
  { available := decide (availableTimes.length > 0)
    availableSlots := availableTimes.take 5 }

/-! ### Spec-side characterization of `checkAvailability` (for claim C2)

`specFreeSlots` renders the specification's wording — "enumerates each
calendar day in the inclusive range, excludes weekends, and for each
remaining day enumerates fixed one-hour business slots from 09:00 to
17:00" — as a filter/flatMap over the day range, to be compared with the
`while`-loop translation `availLoop`. -/

/-- All non-conflicting slots of the inclusive day range, spec-side form. -/
def specFreeSlots (startDay endDay : Nat) (busySlots : List BusyInterval)
    (tzLA : Bool) : List TimeSlot :=
  ((List.range' startDay (endDay + 1 - startDay)).filter
      (fun d => decide (jsGetDay d ≠ 0 ∧ jsGetDay d ≠ 6))).flatMap
    (dayFreeSlots tzLA busySlots)

/-- Chronological order on candidate slots: earlier day, or same day and
earlier hour. -/
def slotLT (a b : TimeSlot) : Prop :=
  a.date < b.date ∨ (a.date = b.date ∧ a.startTime < b.startTime)

lemma availLoop_eq_aux (tzLA : Bool) (busySlots : List BusyInterval) :
    ∀ (n current endDay : Nat), endDay + 1 - current = n →
      availLoop tzLA busySlots current endDay =
        ((List.range' current n).filter
            (fun d => decide (jsGetDay d ≠ 0 ∧ jsGetDay d ≠ 6))).flatMap
          (dayFreeSlots tzLA busySlots) := by
  intro n
  induction n with
  | zero =>
    intro current endDay h
    have hlt : ¬ current ≤ endDay := by omega
    rw [availLoop]
    simp [hlt]
  | succ n ih =>
    intro current endDay h
    have hle : current ≤ endDay := by omega
    have h' : endDay + 1 - (current + 1) = n := by omega
    rw [availLoop, if_pos hle, ih (current + 1) endDay h']
    have hr : List.range' current (n + 1) = current :: List.range' (current + 1) n :=
      List.range'_succ current n 1
    rw [hr, List.filter_cons]
    by_cases hwd : jsGetDay current ≠ 0 ∧ jsGetDay current ≠ 6
    · simp [hwd]
    · simp [hwd]

lemma availLoop_eq (tzLA : Bool) (busySlots : List BusyInterval)
    (startDay endDay : Nat) :
    availLoop tzLA busySlots startDay endDay =
      specFreeSlots startDay endDay busySlots tzLA :=
  availLoop_eq_aux tzLA busySlots (endDay + 1 - startDay) startDay endDay rfl

lemma mem_dayFreeSlots {tzLA : Bool} {busySlots : List BusyInterval} {d : Nat}
    {slot : TimeSlot} :
    slot ∈ dayFreeSlots tzLA busySlots d ↔
      (slot.date = d ∧ 9 ≤ slot.startTime ∧ slot.startTime < 17 ∧
        slot.endTime = slot.startTime + 1 ∧
        isSlotBusy busySlots (slotInstant tzLA d slot.startTime)
          (slotInstant tzLA d (slot.startTime + 1)) = false) := by
  unfold dayFreeSlots
  rw [List.mem_filterMap]
  constructor
  · rintro ⟨hour, hmem, hf⟩
    rw [List.mem_range'_1] at hmem
    by_cases hb : isSlotBusy busySlots (slotInstant tzLA d hour)
        (slotInstant tzLA d (hour + 1)) = true
    · simp [hb] at hf
    · rw [Bool.not_eq_true] at hb
      simp only [hb, Bool.false_eq_true, if_false, Option.some.injEq] at hf
      subst hf
      exact ⟨rfl, hmem.1, (by omega : hour < 17), rfl, hb⟩
  · rintro ⟨hdate, h9, h17, hend, hfree⟩
    subst hdate
    refine ⟨slot.startTime, ?_, ?_⟩
    · rw [List.mem_range'_1]; omega
    · rw [hfree]
      simp only [Bool.false_eq_true, if_false, Option.some.injEq]
      cases slot
      simp_all

lemma mem_specFreeSlots {startDay endDay : Nat} {busySlots : List BusyInterval}
    {tzLA : Bool} {slot : TimeSlot} :
    slot ∈ specFreeSlots startDay endDay busySlots tzLA ↔
      (startDay ≤ slot.date ∧ slot.date ≤ endDay ∧
        jsGetDay slot.date ≠ 0 ∧ jsGetDay slot.date ≠ 6 ∧
        9 ≤ slot.startTime ∧ slot.startTime < 17 ∧
        slot.endTime = slot.startTime + 1 ∧
        isSlotBusy busySlots (slotInstant tzLA slot.date slot.startTime)
          (slotInstant tzLA slot.date (slot.startTime + 1)) = false) := by
  unfold specFreeSlots
  rw [List.mem_flatMap]
  constructor
  · rintro ⟨d, hd, hslot⟩
    rw [List.mem_filter] at hd
    obtain ⟨hrange, hwd⟩ := hd
    rw [List.mem_range'_1] at hrange
    rw [mem_dayFreeSlots] at hslot
    obtain ⟨hdate, h9, h17, hend, hfree⟩ := hslot
    subst hdate
    have hwd' : jsGetDay slot.date ≠ 0 ∧ jsGetDay slot.date ≠ 6 := by
      simpa using hwd
    exact ⟨hrange.1, by omega, hwd'.1, hwd'.2, h9, h17, hend, hfree⟩
  · rintro ⟨hs, he, hwd0, hwd6, h9, h17, hend, hfree⟩
    refine ⟨slot.date, ?_, ?_⟩
    · rw [List.mem_filter, List.mem_range'_1]
      constructor
      · omega
      · simp [hwd0, hwd6]
    · rw [mem_dayFreeSlots]
      exact ⟨rfl, h9, h17, hend, hfree⟩

lemma pairwise_dayFreeSlots (tzLA : Bool) (busySlots : List BusyInterval) (d : Nat) :
    List.Pairwise slotLT (dayFreeSlots tzLA busySlots d) := by
  unfold dayFreeSlots
  rw [List.pairwise_filterMap]
  have h := List.pairwise_lt_range' 9 8 1
  refine h.imp_of_mem ?_
  intro a b _ _ hab x hx y hy
  split at hx
  · exact absurd hx (by simp)
  · split at hy
    · exact absurd hy (by simp)
    · simp only [Option.mem_def, Option.some.injEq] at hx hy
      subst hx; subst hy
      exact Or.inr ⟨rfl, hab⟩

lemma pairwise_flatMap_days (tzLA : Bool) (busySlots : List BusyInterval) :
    ∀ ds : List Nat, List.Pairwise (· < ·) ds →
      List.Pairwise slotLT (ds.flatMap (dayFreeSlots tzLA busySlots)) := by
  intro ds
  induction ds with
  | nil => simp
  | cons d ds ih =>
    intro hdays
    rw [List.pairwise_cons] at hdays
    rw [List.flatMap_cons, List.pairwise_append]
    refine ⟨pairwise_dayFreeSlots tzLA busySlots d, ih hdays.2, ?_⟩
    intro a ha b hb
    rw [List.mem_flatMap] at hb
    obtain ⟨d', hd', hb⟩ := hb
    have had : a.date = d := (mem_dayFreeSlots.1 ha).1
    have hbd : b.date = d' := (mem_dayFreeSlots.1 hb).1
    exact Or.inl (by rw [had, hbd]; exact hdays.1 d' hd')

lemma pairwise_specFreeSlots (startDay endDay : Nat) (busySlots : List BusyInterval)
    (tzLA : Bool) :
    List.Pairwise slotLT (specFreeSlots startDay endDay busySlots tzLA) :=
  pairwise_flatMap_days tzLA busySlots _
    ((List.pairwise_lt_range' startDay (endDay + 1 - startDay) 1).filter _)

/-- C1: a candidate one-hour slot `[s, e)` is classified busy by
`checkAvailability` iff some reported busy interval `[b1, b2)` satisfies
`b1 ≤ s < b2`, or `b1 < e ≤ b2`, or `s ≤ b1 ∧ e ≥ b2`; and on the literal
input `busy = [{start: 09:30, end: 09:45}]` over one business day (epoch
day 0, a Thursday, in the default `-08:00` zone, so the busy interval is
`[1050, 1065)` in minutes since the epoch), the slot 09:00–10:00 is
excluded from the returned available slots. -/
theorem checkAvailability_overlap_c1 :
    (∀ (busySlots : List BusyInterval) (s e : Int),
        isSlotBusy busySlots s e = true ↔
          ∃ b ∈ busySlots,
            (b.start ≤ s ∧ s < b.stop) ∨ (b.start < e ∧ e ≤ b.stop) ∨
              (s ≤ b.start ∧ e ≥ b.stop))
    ∧ TimeSlot.mk 0 9 10 ∉
        (checkAvailability 0 0 [⟨1050, 1065⟩] true).availableSlots := by
  constructor
  · intro busySlots s e
    simp only [isSlotBusy, List.any_eq_true, Bool.or_eq_true, Bool.and_eq_true,
      decide_eq_true_eq, ge_iff_le]
    constructor
    · rintro ⟨b, hb, h⟩
      exact ⟨b, hb, by tauto⟩
    · rintro ⟨b, hb, h⟩
      exact ⟨b, hb, by tauto⟩
  · simp only [checkAvailability, availLoop_eq]
    decide

/-- C2: over every start/end day range and busy-interval list,
`checkAvailability` (i) returns as `availableSlots` the first at-most-five
elements of the chronological list of non-conflicting slots, (ii) that
list contains exactly the slots of weekdays in the inclusive range with
the eight fixed one-hour start times 09:00–16:00 (ending by 17:00) that
conflict with no busy interval, (iii) the list is in chronological order,
(iv) `available` is `true` iff at least one non-conflicting slot exists
anywhere in the range, and (v) the computation is deterministic. -/
theorem checkAvailability_scan_c2 (startDay endDay : Nat)
    (busySlots : List BusyInterval) (tzLA : Bool) :
    ((checkAvailability startDay endDay busySlots tzLA).availableSlots
        = (specFreeSlots startDay endDay busySlots tzLA).take 5)
    ∧ (∀ slot : TimeSlot,
        slot ∈ specFreeSlots startDay endDay busySlots tzLA ↔
          (startDay ≤ slot.date ∧ slot.date ≤ endDay ∧
            jsGetDay slot.date ≠ 0 ∧ jsGetDay slot.date ≠ 6 ∧
            9 ≤ slot.startTime ∧ slot.startTime < 17 ∧
            slot.endTime = slot.startTime + 1 ∧
            isSlotBusy busySlots (slotInstant tzLA slot.date slot.startTime)
              (slotInstant tzLA slot.date (slot.startTime + 1)) = false))
    ∧ List.Pairwise slotLT (specFreeSlots startDay endDay busySlots tzLA)
    ∧ ((checkAvailability startDay endDay busySlots tzLA).available = true ↔
        ∃ slot, slot ∈ specFreeSlots startDay endDay busySlots tzLA)
    ∧ checkAvailability startDay endDay busySlots tzLA
        = checkAvailability startDay endDay busySlots tzLA := by
  refine ⟨?_, fun slot => mem_specFreeSlots,
    pairwise_specFreeSlots startDay endDay busySlots tzLA, ?_, rfl⟩
  · simp [checkAvailability, availLoop_eq]
  · simp only [checkAvailability, availLoop_eq, decide_eq_true_eq]
    exact List.length_pos_iff_exists_mem

/-! ## Meeting scheduling (`src/calendarTools.js`)

`scheduleMeeting` computes the event's start instant with
`formatDateTimeForGoogle`, which feeds the parsed date and time components
to `Date.UTC`.  `Date.UTC` is a JavaScript builtin; it is modelled by the
standard civil-from-days calendar computation, returning milliseconds
since the epoch. -/

/-- Days since 1970-01-01 of the proleptic Gregorian date `y-m-d`
(model of the calendar arithmetic inside `Date.UTC`). -/
def daysFromCivil (y m d : Int) : Int :=
  let y' := if m ≤ 2 then y - 1 else y
  let era := Int.fdiv y' 400
  let yoe := y' - era * 400
  let mp := Int.emod (m + 9) 12
  let doy := (153 * mp + 2) / 5 + d - 1
  let doe := yoe * 365 + yoe / 4 - yoe / 100 + doy
  era * 146097 + doe - 719468

/-- `Date.UTC(year, monthIndex, day, hours, minutes, 0)` in milliseconds
since the epoch (`monthIndex` is 0-based, as in JavaScript). -/
def dateUTCms (year monthIndex day hours minutes : Int) : Int :=
  (daysFromCivil year (monthIndex + 1) day * 1440 + hours * 60 + minutes) * 60000

/-- `parseInt` applied to the `i`-th piece of a split string (the `NaN`
of a missing piece or failed parse is rendered as 0, a case no claim
depends on). -/
def parseIntAt (parts : List (List Char)) (i : Nat) : Int :=
  ((parts.get? i).bind (fun p => parseIntJs (String.mk p))).getD 0

/-- `formatDateTimeForGoogle(dateStr, timeStr, timeZone)` of
`src/calendarTools.js`: splits `"YYYY-MM-DD"` on `-` and `"HH:MM"` on `:`
and builds the instant with `Date.UTC(year, month - 1, day, hours,
minutes, 0)`.  The `timeZone` parameter is accepted but not used, exactly
as in the source. -/
def formatDateTimeForGoogle (dateStr timeStr : String) (timeZone : String) : Int :=
  let dparts := splitOnChar '-' dateStr.data
  let tparts := splitOnChar ':' timeStr.data
  let year := parseIntAt dparts 0
  let month := parseIntAt dparts 1
  let day := parseIntAt dparts 2
  let hours := parseIntAt tparts 0
  let minutes := parseIntAt tparts 1
  dateUTCms year (month - 1) day hours minutes

/-- `getMeetingDurationMinutes(meetingType)` of `src/calendarTools.js`:
the `switch` on the lower-cased meeting type. -/
def getMeetingDurationMinutes (meetingType : String) : Nat :=
  let t := jsToLowerCase meetingType
  if t = "initial consultation" then 60
  else if t = "proposal review" then 45
  else if t = "status update" then 30
  else if t = "technical discussion" then 60
  else 30

/-- Arguments of the `scheduleMeeting` tool, with the source's defaults. -/
structure ScheduleArgs where
  clientName : String
  clientEmail : String
  date : String
  startTime : String
  meetingType : String
  projectName : String := ""
  notes : String := ""
  location : String := "Google Meet"
  timeZone : String := "America/Los_Angeles"
deriving DecidableEq, Repr

/-- The fields of the calendar event built by `scheduleMeeting` that the
claims concern: summary, start/end instants with their zone labels,
attendees, and the video-conference decision.  (The description text and
the two fixed reminder offsets are omitted; no claim mentions them.) -/
structure CalendarEvent where
  summary : String
  startMs : Int
  startTimeZone : String
  endMs : Int
  endTimeZone : String
  attendees : List String
  useVideoConference : Bool
deriving DecidableEq, Repr

/-- The event `scheduleMeeting` hands to the calendar capability:
duration from the meeting type, start from `formatDateTimeForGoogle`,
end obtained by adding the duration in milliseconds. -/
def scheduleMeetingEvent (a : ScheduleArgs) : CalendarEvent :=
  let meetingDuration := getMeetingDurationMinutes a.meetingType
  let startDateTime := formatDateTimeForGoogle a.date a.startTime a.timeZone
  let endDateTime := startDateTime + meetingDuration * 60000
  let useVideoConference :=
    jsIncludes (jsToLowerCase a.location) "google meet" ||
      jsIncludes (jsToLowerCase a.location) "zoom"
  { summary := a.meetingType ++ ": " ++ a.clientName ++ " - " ++
      jsOrStr a.projectName "Portfolio Discussion"
    startMs := startDateTime
    startTimeZone := a.timeZone
    endMs := endDateTime
    endTimeZone := a.timeZone
    attendees := [a.clientEmail, "robinsingh248142@gmail.com"]
    useVideoConference := useVideoConference }

/-- C3: the scheduled duration (end minus start) is `60000 ·
getMeetingDurationMinutes meetingType` for every argument record, the
duration depends only on the lower-cased meeting type with the table
initial consultation ↦ 60, proposal review ↦ 45, status update ↦ 30,
technical discussion ↦ 60 and default 30 for every other string, and two
calls agreeing on `meetingType` produce the same duration no matter how
all other caller-supplied arguments differ. -/
theorem scheduleMeeting_duration_c3 :
    (∀ a : ScheduleArgs,
        (scheduleMeetingEvent a).endMs - (scheduleMeetingEvent a).startMs
          = (getMeetingDurationMinutes a.meetingType : Int) * 60000)
    ∧ getMeetingDurationMinutes "Initial Consultation" = 60
    ∧ getMeetingDurationMinutes "Proposal Review" = 45
    ∧ getMeetingDurationMinutes "Status Update" = 30
    ∧ getMeetingDurationMinutes "Technical Discussion" = 60
    ∧ (∀ s : String,
        jsToLowerCase s ∉ (["initial consultation", "proposal review", "status update",
          "technical discussion"] : List String) →
        getMeetingDurationMinutes s = 30)
    ∧ (∀ s₁ s₂ : String, jsToLowerCase s₁ = jsToLowerCase s₂ →
        getMeetingDurationMinutes s₁ = getMeetingDurationMinutes s₂)
    ∧ (∀ a₁ a₂ : ScheduleArgs, a₁.meetingType = a₂.meetingType →
        (scheduleMeetingEvent a₁).endMs - (scheduleMeetingEvent a₁).startMs
          = (scheduleMeetingEvent a₂).endMs - (scheduleMeetingEvent a₂).startMs) := by
  have hdur : ∀ a : ScheduleArgs,
      (scheduleMeetingEvent a).endMs - (scheduleMeetingEvent a).startMs
        = (getMeetingDurationMinutes a.meetingType : Int) * 60000 := by
    intro a
    simp [scheduleMeetingEvent]
  refine ⟨hdur, by decide, by decide, by decide, by decide, ?_, ?_, ?_⟩
  · intro s hs
    simp only [List.mem_cons, List.not_mem_nil, or_false, not_or] at hs
    obtain ⟨h1, h2, h3, h4⟩ := hs
    simp [getMeetingDurationMinutes, h1, h2, h3, h4]
  · intro s₁ s₂ h
    simp [getMeetingDurationMinutes, h]
  · intro a₁ a₂ h
    rw [hdur a₁, hdur a₂, h]

/-- Closed witness for `scheduleMeeting_duration_c3`: discharges the
hypothesis-bearing conjuncts at concrete inputs (an unknown meeting type,
two casings of the same type, and two argument records differing in every
caller-suppliable field except the meeting type). -/
theorem scheduleMeeting_duration_c3_witness :
    getMeetingDurationMinutes "kickoff call" = 30
    ∧ jsToLowerCase "kickoff call" ∉
        (["initial consultation", "proposal review", "status update",
          "technical discussion"] : List String)
    ∧ getMeetingDurationMinutes "INITIAL CONSULTATION"
        = getMeetingDurationMinutes "initial consultation"
    ∧ (scheduleMeetingEvent ⟨"A", "a@x.com", "2025-03-03", "10:00",
          "proposal review", "P", "n", "Office", "UTC"⟩).endMs
        - (scheduleMeetingEvent ⟨"A", "a@x.com", "2025-03-03", "10:00",
          "proposal review", "P", "n", "Office", "UTC"⟩).startMs
      = (scheduleMeetingEvent ⟨"B", "b@y.com", "2026-12-24", "15:30",
          "proposal review", "Q", "m", "Zoom", "Asia/Kolkata"⟩).endMs
        - (scheduleMeetingEvent ⟨"B", "b@y.com", "2026-12-24", "15:30",
          "proposal review", "Q", "m", "Zoom", "Asia/Kolkata"⟩).startMs :=
  ⟨scheduleMeeting_duration_c3.2.2.2.2.2.1 "kickoff call" (by decide),
   by decide,
   scheduleMeeting_duration_c3.2.2.2.2.2.2.1 "INITIAL CONSULTATION"
     "initial consultation" (by decide),
   scheduleMeeting_duration_c3.2.2.2.2.2.2.2 _ _ rfl⟩

/-- C10: `formatDateTimeForGoogle` ignores its `timeZone` parameter, so
two `scheduleMeeting` calls that differ only in their `timeZone` argument
build events with identical start and end instants; the `timeZone`
argument only becomes the zone label attached to the event. -/
theorem formatDateTime_tz_independent_c10 :
    (∀ (dateStr timeStr tz₁ tz₂ : String),
        formatDateTimeForGoogle dateStr timeStr tz₁
          = formatDateTimeForGoogle dateStr timeStr tz₂)
    ∧ (∀ (a : ScheduleArgs) (tz₁ tz₂ : String),
        ((scheduleMeetingEvent { a with timeZone := tz₁ }).startMs
            = (scheduleMeetingEvent { a with timeZone := tz₂ }).startMs)
        ∧ ((scheduleMeetingEvent { a with timeZone := tz₁ }).endMs
            = (scheduleMeetingEvent { a with timeZone := tz₂ }).endMs)
        ∧ (scheduleMeetingEvent { a with timeZone := tz₁ }).startTimeZone = tz₁
        ∧ (scheduleMeetingEvent { a with timeZone := tz₁ }).endTimeZone = tz₁) :=
  ⟨fun _ _ _ _ => rfl, fun _ _ _ => ⟨rfl, rfl, rfl, rfl⟩⟩

/-! ## The email tool (`src/agent.js`, `sendEmail`)

The process-wide mutable flag `emailSentInCurrentSession` is threaded
explicitly: each run takes the flag's value before the call and reports
its value after.  The nodemailer transport is an external capability,
modelled by an `Except String Unit` giving the outcome of the one awaited
`sendMail` call. -/

/-- The arguments object of the `sendEmail` tool, with the source's
defaults for the optional fields.  `toAddr` renders the source's `to`
field (`to` is a reserved word in Lean). -/
structure ToolArgs where
  toAddr : String := ""
  subject : String := ""
  body : String := ""
  priority : String := "normal"
  isProposal : Bool := false
  clientName : String := ""
  projectType : String := ""
  proposal : String := ""
  projectName : String := ""
  requirements : String := ""
  budget : String := ""
  timeline : String := ""
  clientEmail : String := ""
  clientPhone : String := ""
deriving DecidableEq, Repr

/-- The fixed operator address the source forces every send to. -/
def secureRecipient : String := "robinsingh248142@gmail.com"

/-- What one `sendEmail` call did: the string returned to the caller, the
guard flag's value afterwards, whether `transporter.sendMail` was invoked,
and if so with which recipient. -/
structure SendEmailOutcome where
  result : String
  flagAfter : Bool
  transportInvoked : Bool
  transportTo : Option String
deriving DecidableEq, Repr

/-- The `sendEmail` tool body of `src/agent.js` (lines 1006–1095):
duplicate-send guard first, then the recipient check, then the transport
call, with the flag set only after a successful send.  (The HTML body
assembly via `generateEmailHTML` is not modelled; no claim mentions the
transported body text.) -/
def sendEmailRun (args : ToolArgs) (emailSentInCurrentSession : Bool)
    (transport : Except String Unit) : SendEmailOutcome :=
  if emailSentInCurrentSession && jsIncludes args.subject "Revised" then
    { result := "Skipping redundant email. An email has already been sent in this session."
      flagAfter := emailSentInCurrentSession
      transportInvoked := false
      transportTo := none }
  else if args.toAddr ≠ secureRecipient then
    { result := "Security constraint: Emails can only be sent to " ++ secureRecipient ++
        ". Redirecting email to authorized recipient."
      flagAfter := emailSentInCurrentSession
      transportInvoked := false
      transportTo := none }
  else
    match transport with
    | Except.ok _ =>
      { result := "Email successfully sent to " ++ secureRecipient ++
          " with enhanced formatting"
        flagAfter := true
        transportInvoked := true
        transportTo := some secureRecipient }
    | Except.error msg =>
      { result := "Failed to send email: " ++ msg
        flagAfter := emailSentInCurrentSession
        transportInvoked := true
        transportTo := some secureRecipient }

/-- C4 fails as stated: when the duplicate-send guard fires first (flag
set and subject containing "Revised"), a call whose `to` differs from the
fixed operator address returns the skip notice, not the security notice
(the transport is still not invoked). -/
theorem sendEmail_redirect_c4_counterexample :
    (({ toAddr := "attacker@example.com", subject := "Revised proposal" } : ToolArgs).toAddr
        ≠ secureRecipient)
    ∧ (sendEmailRun { toAddr := "attacker@example.com", subject := "Revised proposal" }
        true (Except.ok ())).transportInvoked = false
    ∧ (sendEmailRun { toAddr := "attacker@example.com", subject := "Revised proposal" }
        true (Except.ok ())).result
      = "Skipping redundant email. An email has already been sent in this session."
    ∧ (sendEmailRun { toAddr := "attacker@example.com", subject := "Revised proposal" }
        true (Except.ok ())).result
      ≠ "Security constraint: Emails can only be sent to robinsingh248142@gmail.com. Redirecting email to authorized recipient." := by
  refine ⟨by decide, by decide, by decide, by decide⟩

/-- C4, amended: for every `sendEmail` invocation whose `to` differs from
the fixed operator address the mail transport is never invoked, and the
caller receives the security redirect notice — except when the
duplicate-send guard fires first (flag set and subject containing
"Revised"), in which case the skip notice is returned instead; and every
send that does reach the transport is addressed to the fixed operator
address regardless of caller input. -/
theorem sendEmail_redirect_c4 (args : ToolArgs) (flag : Bool)
    (transport : Except String Unit) :
    (args.toAddr ≠ secureRecipient →
      (sendEmailRun args flag transport).transportInvoked = false
      ∧ (sendEmailRun args flag transport).result =
          (if flag && jsIncludes args.subject "Revised" then
            "Skipping redundant email. An email has already been sent in this session."
          else
            "Security constraint: Emails can only be sent to " ++ secureRecipient ++
              ". Redirecting email to authorized recipient."))
    ∧ ((sendEmailRun args flag transport).transportInvoked = true →
        (sendEmailRun args flag transport).transportTo = some secureRecipient) := by
  unfold sendEmailRun
  by_cases hguard : (flag && jsIncludes args.subject "Revised") = true
  · simp [hguard]
  · rw [Bool.not_eq_true] at hguard
    by_cases hto : args.toAddr = secureRecipient
    · simp only [hguard, Bool.false_eq_true, if_false]
      rw [if_neg (by simp [hto])]
      refine ⟨fun h => absurd hto h, fun _ => ?_⟩
      cases transport <;> simp
    · simp only [hguard, Bool.false_eq_true, if_false]
      rw [if_pos hto]
      refine ⟨fun _ => ⟨rfl, rfl⟩, fun h => ?_⟩
      simp at h

/-- Closed witness for `sendEmail_redirect_c4`: a mismatched recipient
with the guard clear yields the security notice and no transport call,
and a send that reaches the transport goes to the fixed address. -/
theorem sendEmail_redirect_c4_witness :
    ((sendEmailRun { toAddr := "client@example.com", subject := "Project update" }
        false (Except.ok ())).transportInvoked = false)
    ∧ ((sendEmailRun { toAddr := "client@example.com", subject := "Project update" }
        false (Except.ok ())).result
      = "Security constraint: Emails can only be sent to robinsingh248142@gmail.com. Redirecting email to authorized recipient.")
    ∧ ((sendEmailRun { toAddr := "robinsingh248142@gmail.com", subject := "Hello" }
        false (Except.ok ())).transportTo = some secureRecipient) :=
  ⟨((sendEmail_redirect_c4 { toAddr := "client@example.com", subject := "Project update" }
        false (Except.ok ())).1 (by decide)).1,
   (((sendEmail_redirect_c4 { toAddr := "client@example.com", subject := "Project update" }
        false (Except.ok ())).1 (by decide)).2).trans (by decide),
   (sendEmail_redirect_c4 { toAddr := "robinsingh248142@gmail.com", subject := "Hello" }
        false (Except.ok ())).2 (by decide)⟩

/-! ## Pattern matches used by the dispatch layer (`src/agent.js`)

The source applies a handful of fixed regular expressions with
`String.prototype.match`.  Each is modelled by a scanner with JavaScript's
leftmost-match semantics: `firstMatchAux try1` runs the pattern attempt
`try1` at every position left to right and returns the first success. -/

/-- Leftmost match: try the pattern at each successive start position. -/
def firstMatchAux {α : Type} (try1 : List Char → Option α) : List Char → Option α
  | [] => try1 []
  | c :: cs =>
    match try1 (c :: cs) with
    | some a => some a
    | none => firstMatchAux try1 cs

/-- Consume the literal `lit` at the head of `s`, returning the rest. -/
def litThen (lit : List Char) (s : List Char) : Option (List Char) :=
  if charsStartWith lit s then some (s.drop lit.length) else none

/-- Greedy `X+`: the maximal nonempty run of characters satisfying `p`,
with the rest; `none` when the run is empty. -/
def takeRun1 (p : Char → Bool) (s : List Char) : Option (List Char × List Char) :=
  let taken := s.takeWhile p
  if taken.isEmpty then none else some (taken, s.drop taken.length)

/-- `.` of a JavaScript regex: everything up to a line terminator. -/
def restOfLine (s : List Char) : List Char :=
  s.takeWhile (fun c => !(c == '\n') && !(c == '\r'))

/-- Model of JavaScript `s.trim()` on the ASCII whitespace that occurs in
this program's strings. -/
def jsTrim (s : String) : String :=
  let sp := fun c : Char => c == ' ' || c == '\t' || c == '\n' || c == '\r'
  String.mk (((s.data.dropWhile sp).reverse.dropWhile sp).reverse)

/-- `[\d,]+` character class of the budget pattern. -/
def isDigitOrComma (c : Char) : Bool := c.isDigit || c == ','

/-- One attempt of `/budget ranging from \$([\d,]+) to \$([\d,]+)/`;
the source keeps `match[0]`, the full matched text. -/
def budgetTry (s : List Char) : Option String := do
  let s1 ← litThen "budget ranging from $".data s
  let (d1, s2) ← takeRun1 isDigitOrComma s1
  let s3 ← litThen " to $".data s2
  let (d2, _) ← takeRun1 isDigitOrComma s3
  pure (String.mk ("budget ranging from $".data ++ d1 ++ " to $".data ++ d2))

/-- `requirements.match(/budget ranging from \$([\d,]+) to \$([\d,]+)/)`,
full match (`match[0]`) or `none`. -/
def jsMatchBudget (s : String) : Option String := firstMatchAux budgetTry s.data

/-- One attempt of
`/timeline for project completion is between (\d+ to \d+ weeks)/`;
the source keeps `match[1]`, the capture group. -/
def timelineTry (s : List Char) : Option String := do
  let s1 ← litThen "timeline for project completion is between ".data s
  let (d1, s2) ← takeRun1 Char.isDigit s1
  let s3 ← litThen " to ".data s2
  let (d2, s4) ← takeRun1 Char.isDigit s3
  let _ ← litThen " weeks".data s4
  pure (String.mk (d1 ++ " to ".data ++ d2 ++ " weeks".data))

/-- `requirements.match(/timeline for project completion is between (\d+ to \d+ weeks)/)`,
capture group 1 or `none`. -/
def jsMatchTimeline (s : String) : Option String := firstMatchAux timelineTry s.data

/-- `[A-Z]` of the client-name pattern. -/
def isAsciiUpper (c : Char) : Bool := 'A' ≤ c && c ≤ 'Z'

/-- `[a-z]` of the client-name pattern. -/
def isAsciiLower (c : Char) : Bool := 'a' ≤ c && c ≤ 'z'

/-- One attempt of `/([A-Z][a-z]+ [A-Z][a-z]+) is looking for/`; the
source keeps `match[1]`, the two-word name. -/
def clientNameTry : List Char → Option String
  | [] => none
  | c1 :: rest1 =>
    if isAsciiUpper c1 then do
      let (l1, s2) ← takeRun1 isAsciiLower rest1
      let s3 ← litThen " ".data s2
      match s3 with
      | [] => none
      | c2 :: rest2 =>
        if isAsciiUpper c2 then do
          let (l2, s4) ← takeRun1 isAsciiLower rest2
          let _ ← litThen " is looking for".data s4
          pure (String.mk (c1 :: l1 ++ ' ' :: c2 :: l2))
        else none
    else none

/-- `content.match(/([A-Z][a-z]+ [A-Z][a-z]+) is looking for/)`,
capture group 1 or `none`. -/
def jsMatchClientName (s : String) : Option String :=
  firstMatchAux clientNameTry s.data

/-- `[a-zA-Z0-9._-]` class of the email pattern. -/
def isEmailChar (c : Char) : Bool := c.isAlphanum || c == '.' || c == '_' || c == '-'

/-- One attempt of `/([a-zA-Z0-9._-]+@[a-zA-Z0-9._-]+\.[a-zA-Z0-9_-]+)/`
with the engine's greedy-plus-backtracking behavior: the class run after
`@` backs off to the last dot that is followed by a dot-free tail. -/
def emailTry (s : List Char) : Option String := do
  let (localPart, s1) ← takeRun1 isEmailChar s
  let s2 ← litThen "@".data s1
  let (domChunk, _) ← takeRun1 isEmailChar s2
  let dots := (List.range domChunk.length).filter fun j =>
    decide (1 ≤ j) && (domChunk.get? j == some '.') &&
      (match domChunk.get? (j + 1) with
       | some c => !(c == '.')
       | none => false)
  match dots.getLast? with
  | none => none
  | some j =>
    let tail := (domChunk.drop (j + 1)).takeWhile (fun c => !(c == '.'))
    pure (String.mk (localPart ++ '@' :: domChunk.take j ++ '.' :: tail))

/-- `content.match(/([a-zA-Z0-9._-]+@[a-zA-Z0-9._-]+\.[a-zA-Z0-9_-]+)/)`,
capture group 1 (= the whole match) or `none`. -/
def jsMatchEmail (s : String) : Option String := firstMatchAux emailTry s.data

/-- Alternatives of `/(e-commerce platform|website|mobile app|dashboard|CRM system)/i`,
in the source's order. -/
def projectTypeAlts : List String :=
  ["e-commerce platform", "website", "mobile app", "dashboard", "CRM system"]

/-- One attempt of the case-insensitive project-type alternation; the
match keeps the input's own casing. -/
def projectTypeTry (s : List Char) : Option String :=
  projectTypeAlts.findSome? fun alt =>
    if charsStartWith (alt.data.map jsCharToLower) (s.map jsCharToLower) then
      some (String.mk (s.take alt.data.length))
    else none

/-- `content.match(/(e-commerce platform|website|mobile app|dashboard|CRM system)/i)`,
capture group 1 or `none`. -/
def jsMatchProjectType (s : String) : Option String :=
  firstMatchAux projectTypeTry s.data

/-- One attempt of `/# Project Proposal for (.*)/`: the rest of the line
after the literal heading. -/
def proposalForTry (s : List Char) : Option String := do
  let s1 ← litThen "# Project Proposal for ".data s
  pure (String.mk (restOfLine s1))

/-- `content.match(/# Project Proposal for (.*)/)`, capture group 1. -/
def jsMatchProposalFor (s : String) : Option String :=
  firstMatchAux proposalForTry s.data

/-- One attempt of `/Type: (.*)/`: the rest of the line after the literal. -/
def typeLineTry (s : List Char) : Option String := do
  let s1 ← litThen "Type: ".data s
  pure (String.mk (restOfLine s1))

/-- `content.match(/Type: (.*)/)`, capture group 1. -/
def jsMatchTypeLine (s : String) : Option String :=
  firstMatchAux typeLineTry s.data

/-! ## Proposal generation (`src/agent.js`, `generateProjectProposal`) -/

/-- `generateApproach(projectType, requirements)` of `src/agent.js`. -/
def generateApproach (projectType : String) (requirements : String) : String :=
  if jsIncludes (jsToLowerCase projectType) "web" then
    "Our team will develop a responsive web application using React and Next.js, with a focus on performance and user experience. We'll implement continuous integration for quality assurance and deliver a solution that meets your specific business needs while ensuring scalability for future growth."
  else if jsIncludes (jsToLowerCase projectType) "mobile" then
    "We propose developing a cross-platform mobile application using React Native to reduce development time while maintaining native-like performance. Firebase will be used for backend services, and we'll ensure the app works flawlessly across both iOS and Android platforms with a consistent user experience."
  else if jsIncludes (jsToLowerCase projectType) "ecommerce" ||
      jsIncludes (jsToLowerCase projectType) "e-commerce" then
    "For your e-commerce needs, we'll build a scalable platform using Next.js with server-side rendering for optimal performance and SEO. We'll integrate secure payment processing via Stripe, implement inventory management, and ensure the platform offers an intuitive shopping experience for your customers."
  else if jsIncludes (jsToLowerCase projectType) "crm" ||
      jsIncludes (jsToLowerCase projectType) "dashboard" then
    "We'll develop a custom data-driven solution that provides actionable insights through interactive visualizations. Using modern JavaScript frameworks and robust backend technologies, we'll create a system that aggregates data from multiple sources and presents it in an intuitive interface tailored to your business workflows."
  else
    "Based on your specific needs, we'll implement a custom solution leveraging our team's expertise in modern development practices and technologies. Our approach will focus on delivering a high-quality, maintainable solution that addresses your unique business requirements while providing a seamless user experience."

/-- `allocateTeam(projectType)` of `src/agent.js`. -/
def allocateTeam (projectType : String) : String :=
  if jsIncludes (jsToLowerCase projectType) "web" then
    "- Alex (Senior Frontend Developer)\n- Jamie (Backend Developer)\n- Jordan (UI/UX Designer)\n- Casey (DevOps Engineer)\n- Robin (Project Lead)"
  else if jsIncludes (jsToLowerCase projectType) "mobile" then
    "- Morgan (Mobile Developer)\n- Jamie (Backend Developer)\n- Jordan (UI/UX Designer)\n- Casey (DevOps Engineer)\n- Robin (Project Lead)"
  else if jsIncludes (jsToLowerCase projectType) "ecommerce" ||
      jsIncludes (jsToLowerCase projectType) "e-commerce" then
    "- Alex (Senior Frontend Developer)\n- Jamie (Backend Developer)\n- Morgan (Integration Specialist)\n- Casey (DevOps Engineer)\n- Robin (Project Lead)"
  else if jsIncludes (jsToLowerCase projectType) "crm" ||
      jsIncludes (jsToLowerCase projectType) "dashboard" then
    "- Taylor (Full Stack Developer)\n- Jordan (UI/UX Designer)\n- Casey (DevOps Engineer)\n- Robin (Project Lead)"
  else
    "- Robin (Solution Architect & Project Lead)\n- Alex (Senior Frontend Developer)\n- Jamie (Backend Developer)\n- Jordan (UI/UX Designer)\n- Casey (DevOps Engineer)"

/-- `generateTimeline(timeline, projectType)` of `src/agent.js`. -/
def generateTimeline (timeline : String) (projectType : String) : String :=
  let baseTimeline :=
    "- Week 1-2: Discovery and Planning\n- Week 3-4: Design and Prototyping\n"
  if jsIncludes (jsToLowerCase projectType) "web" then
    baseTimeline ++
      "- Week 5-8: Frontend and Backend Development\n- Week 9: Testing and Quality Assurance\n- Week 10: Deployment and Handover"
  else if jsIncludes (jsToLowerCase projectType) "mobile" then
    baseTimeline ++
      "- Week 5-10: App Development\n- Week 11-12: Testing (Internal and Beta)\n- Week 13: Store Submission and Launch"
  else if jsIncludes (jsToLowerCase projectType) "ecommerce" ||
      jsIncludes (jsToLowerCase projectType) "e-commerce" then
    baseTimeline ++
      "- Week 5-9: Platform Development\n- Week 10-11: Payment Integration and Security Testing\n- Week 12: Data Migration\n- Week 13-14: Final Testing and Launch"
  else
    baseTimeline ++
      "- Week 5-8: Core Development\n- Week 9-10: Integration and Testing\n- Week 11-12: Final Refinements and Deployment"

/-- `generateBudget(budget, projectType)` of `src/agent.js`. -/
def generateBudget (budget : String) (projectType : String) : String :=
  "- Discovery and Planning: 15%\n- Design and Prototyping: 20%\n- Development: 45%\n- Testing and Quality Assurance: 10%\n- Deployment and Handover: 5%\n- Contingency: 5%"

/-- The `generateProjectProposal` tool body of `src/agent.js` (lines
1268–1331): the template literal assembling the proposal document, with
the source's indentation and blank-line whitespace preserved. -/
def generateProjectProposalRun (clientName projectType requirements budget
    timeline clientEmail clientPhone : String) : String :=
  "\n  # Project Proposal for " ++ clientName ++
  "\n  \n  ## Project Overview\n  Type: " ++ projectType ++
  "\n  Timeline: " ++ timeline ++
  "\n  Budget Range: " ++ budget ++
  "\n  \n  ## Project Requirements\n  " ++ requirements ++
  "\n  \n  ## Proposed Solution\n  Based on your requirements, our team proposes the following approach:\n  " ++
  generateApproach projectType requirements ++
  "\n  \n  ## Team Allocation\n  " ++ allocateTeam projectType ++
  "\n  \n  ## Timeline Breakdown\n  " ++ generateTimeline timeline projectType ++
  "\n  \n  ## Budget Allocation\n  " ++ generateBudget budget projectType ++
  "\n  \n  ## About Our Team\n  Robin's team specializes in delivering high-quality software solutions with a focus on performance, usability, and maintainability. Our portfolio includes projects for clients across various industries, and we pride ourselves on our collaborative approach." ++
  "\n  \n  ## Portfolio Highlights\n  - Website Redesign: Complete overhaul with React and Next.js\n  - Mobile App: Cross-platform solution with React Native\n  - E-commerce Platform: Scalable solution with secure payment processing\n  - Data Dashboard: Interactive analytics visualization\n  - CRM System: Custom solution with advanced reporting" ++
  "\n  \n  ## Client Contact Information\n  " ++
  (if jsTruthy clientEmail then "Email: " ++ clientEmail else "Email: Not provided") ++
  "\n  " ++
  (if jsTruthy clientPhone then "Phone: " ++ clientPhone else "Phone: Not provided") ++
  "\n  \n  ## Contact Information\n  Robin Rathore\n  Email: robinsingh248142@gmail.com\n  Portfolio: https://robinrathore.dev\n  LinkedIn: https://linkedin.com/in/robinrathore" ++
  "\n  \n  ## Next Steps\n  1. Review this proposal\n  2. Schedule a follow-up meeting\n  3. Finalize requirements and scope\n  4. Sign contract and begin work\n      "

/-! ## Conversation messages and the backward context scan -/

/-- A tool call request carried by an assistant message. -/
structure ToolCall where
  id : String
  name : String
  args : ToolArgs
deriving DecidableEq, Repr

/-- One conversation message of the orchestration state: a user message,
an assistant (model) message with its tool call requests, or a tool-result
message correlated by call id. -/
inductive Msg where
  | user (content : String)
  | assistant (content : String) (tool_calls : List ToolCall)
  | toolMsg (content : String) (tool_call_id : String)
deriving DecidableEq, Repr

/-- Result record of `handleClientRequirements`. -/
structure ClientInfo where
  found : Bool
  clientName : String := ""
  clientEmail : String := ""
  projectType : String := ""
  requirements : String := ""
  proposal : String := ""
  needsProposalGeneration : Bool := false
deriving DecidableEq, Repr

/-- First backward loop of `handleClientRequirements`: the most recent
user message exhibiting project-request vocabulary.  Takes the message
list already reversed (most recent first). -/
def hcrUserScan : List Msg → Option ClientInfo
  | [] => none
  | Msg.user content :: rest =>
    if jsIncludes content "e-commerce" || jsIncludes content "web" ||
        jsIncludes content "proposal" || jsIncludes content "project" then
      some
        { found := true
          clientName := (jsMatchClientName content).getD "Client"
          clientEmail := (jsMatchEmail content).getD ""
          projectType := (jsMatchProjectType content).getD "Project"
          requirements := content
          needsProposalGeneration := true }
    else hcrUserScan rest
  | _ :: rest => hcrUserScan rest

/-- Second backward loop of `handleClientRequirements`: the most recent
tool-result message carrying a generated proposal (detected by the literal
document heading).  Takes the message list already reversed. -/
def hcrProposalScan : List Msg → Option ClientInfo
  | [] => none
  | Msg.toolMsg content tid :: rest =>
    if jsTruthy tid && jsTruthy content &&
        jsIncludes content "# Project Proposal for" then
      some
        { found := true
          clientName := ((jsMatchProposalFor content).map jsTrim).getD "Client"
          projectType := ((jsMatchTypeLine content).map jsTrim).getD "Project"
          proposal := content
          needsProposalGeneration := false }
    else hcrProposalScan rest
  | _ :: rest => hcrProposalScan rest

/-- `handleClientRequirements(messages)` of `src/agent.js` (lines
1708–1770): scan backward for fresh client requirements first, then for an
already generated proposal, else report nothing found. -/
def handleClientRequirements (messages : List Msg) : ClientInfo :=
  match hcrUserScan messages.reverse with
  | some ci => ci
  | none =>
    match hcrProposalScan messages.reverse with
    | some ci => ci
    | none => { found := false }

/-! ## Tool registry, dispatch layer and orchestration loop (`src/agent.js`)

The registry is the name-indexed catalog built by `toolsByName`.  Tools
whose results no claim inspects (the informational lookups and the
calendar tools, whose algorithmic core is modelled separately above) are
represented by an oracle `other : String → ToolArgs → String` giving the
observation string of one invocation; `sendEmail` and `generateProjectProposal`
are modelled concretely.  The modelled tools return error strings rather
than throwing, so the per-call `try/catch` of the source has no `catch`
path to model. -/

/-- The names registered in `toolsByName` (`src/agent.js` line 1639,
including the calendar tools of `src/calendarTools.js`). -/
def toolNames : List String :=
  ["sendEmail", "getProjectInfo", "getTeamMemberInfo", "generateProjectProposal",
   "getTeamServices", "introduceTeam", "checkAvailability", "scheduleMeeting",
   "rescheduleMeeting", "cancelMeeting", "getUpcomingMeetings"]

/-- `tool.invoke(args)` for a registered tool: the observation string and
the guard flag's value afterwards (only `sendEmail` touches the flag). -/
def invokeTool (transport : Except String Unit) (other : String → ToolArgs → String)
    (name : String) (args : ToolArgs) (flag : Bool) : String × Bool :=
  if name == "sendEmail" then
    let o := sendEmailRun args flag transport
    (o.result, o.flagAfter)
  else if name == "generateProjectProposal" then
    (generateProjectProposalRun args.clientName args.projectType args.requirements
      args.budget args.timeline args.clientEmail args.clientPhone, flag)
  else
    (other name args, flag)

/-- The body of `toolExecutionNode`'s loop for one tool call whose name
resolved in the registry: the proposal-enrichment branch for `sendEmail`,
the project-name backfill branch for `scheduleMeeting`, and plain
execution otherwise (`src/agent.js` lines 1784–1906). -/
def execRegisteredCall (transport : Except String Unit)
    (other : String → ToolArgs → String) (messages : List Msg) (tc : ToolCall)
    (flag : Bool) : Msg × Bool :=
  if tc.name == "sendEmail" &&
      (jsIncludes tc.args.subject "proposal" || jsIncludes tc.args.body "proposal") then
    let clientInfo := handleClientRequirements messages
    if clientInfo.found then
      if clientInfo.needsProposalGeneration then
        let requirements := clientInfo.requirements
        let budget := (jsMatchBudget requirements).getD "Not specified"
        let timeline := (jsMatchTimeline requirements).getD "Not specified"
        let proposalArgs : ToolArgs :=
          { clientName := clientInfo.clientName
            projectType := clientInfo.projectType
            requirements := requirements
            budget := budget
            timeline := timeline
            clientEmail := clientInfo.clientEmail }
        let proposalResult :=
          (invokeTool transport other "generateProjectProposal" proposalArgs flag).1
        let enhancedArgs :=
          { tc.args with
            isProposal := true
            clientName := clientInfo.clientName
            projectType := clientInfo.projectType
            proposal := proposalResult }
        let r := invokeTool transport other tc.name enhancedArgs flag
        (Msg.toolMsg r.1 tc.id, r.2)
      else
        let enhancedArgs :=
          { tc.args with
            isProposal := true
            clientName := clientInfo.clientName
            projectType := clientInfo.projectType
            proposal := clientInfo.proposal }
        let r := invokeTool transport other tc.name enhancedArgs flag
        (Msg.toolMsg r.1 tc.id, r.2)
    else
      let r := invokeTool transport other tc.name tc.args flag
      (Msg.toolMsg r.1 tc.id, r.2)
  else if tc.name == "scheduleMeeting" then
    let clientInfo := handleClientRequirements messages
    if clientInfo.found && !(jsTruthy tc.args.projectName) then
      let enhancedArgs :=
        { tc.args with
          projectName :=
            jsOrStr clientInfo.projectType
              (jsOrStr tc.args.projectName "Project Discussion") }
      let r := invokeTool transport other tc.name enhancedArgs flag
      (Msg.toolMsg r.1 tc.id, r.2)
    else
      let r := invokeTool transport other tc.name tc.args flag
      (Msg.toolMsg r.1 tc.id, r.2)
  else
    let r := invokeTool transport other tc.name tc.args flag
    (Msg.toolMsg r.1 tc.id, r.2)

/-- `for (const toolCall of lastMessage.tool_calls)` of
`toolExecutionNode`: resolve each call by name, producing either the
tool's observation or the invalid-name error result (pushed only when the
call id is truthy), threading the guard flag. -/
def execCalls (transport : Except String Unit) (other : String → ToolArgs → String)
    (messages : List Msg) : List ToolCall → Bool → List Msg × Bool
  | [], flag => ([], flag)
  | tc :: rest, flag =>
    if toolNames.contains tc.name then
      let r := execRegisteredCall transport other messages tc flag
      let more := execCalls transport other messages rest r.2
      (r.1 :: more.1, more.2)
    else
      let this :=
        if jsTruthy tc.id then
          [Msg.toolMsg
            ("Error: Invalid tool request for '" ++ jsOrStr tc.name "unknown tool" ++ "'")
            tc.id]
        else []
      let more := execCalls transport other messages rest flag
      (this ++ more.1, more.2)

/-- `toolExecutionNode(state)` of `src/agent.js`: run the tool calls of
the last (assistant) message; when calls were requested but no result was
produced, emit the one synthetic error result. -/
def toolExecutionNode (transport : Except String Unit)
    (other : String → ToolArgs → String) (messages : List Msg) (flag : Bool) :
    List Msg × Bool :=
  match messages.getLast? with
  | some (Msg.assistant _ toolCalls) =>
    let r :=
      if toolCalls.length > 0 then execCalls transport other messages toolCalls flag
      else ([], flag)
    if r.1.length = 0 then
      ([Msg.toolMsg "Error processing tool calls. Please try a different request."
          "error"], r.2)
    else r
  | _ => ([], flag)

/-- `determineNextStep(state)` of `src/agent.js`: execute tools iff the
last message carries at least one tool call request. -/
def determineNextStep (messages : List Msg) : Bool :=
  match messages.getLast? with
  | some (Msg.assistant _ toolCalls) => decide (toolCalls.length > 0)
  | _ => false

/-- State of the compiled `portfolioAssistant` graph: the accumulated
messages plus the process-wide `emailSentInCurrentSession` flag, threaded
explicitly. -/
structure AgentState where
  messages : List Msg
  emailFlag : Bool
deriving DecidableEq, Repr

/-- The compiled graph `llmNode → (determineNextStep) → toolExecutionNode
→ llmNode …`, with the model capability as an oracle from the current
messages to the assistant reply (content and tool calls; the constant
system prompt the source prepends is folded into the oracle) and LangGraph's
recursion limit as explicit fuel (fuel exhaustion returns the state as
reached; no claim concerns the exhaustion behavior). -/
def loopRun (oracle : List Msg → String × List ToolCall)
    (transport : Except String Unit) (other : String → ToolArgs → String) :
    Nat → AgentState → AgentState
  | 0, st => st
  | fuel + 1, st =>
    let reply := oracle st.messages
    let msgs' := st.messages ++ [Msg.assistant reply.1 reply.2]
    if determineNextStep msgs' then
      let tr := toolExecutionNode transport other msgs' st.emailFlag
      loopRun oracle transport other fuel { messages := msgs' ++ tr.1, emailFlag := tr.2 }
    else { st with messages := msgs' }

/-- `runPortfolioAssistant(userMessage)` of `src/agent.js` (lines
1967–1979): `resetEmailFlag()` first — the incoming value of the
process-wide flag is discarded — then the graph is invoked on the single
user message. -/
def runPortfolioAssistant (oracle : List Msg → String × List ToolCall)
    (transport : Except String Unit) (other : String → ToolArgs → String)
    (fuel : Nat) (userMessage : String) (incomingFlag : Bool) : AgentState :=
  loopRun oracle transport other fuel
    { messages := [Msg.user userMessage], emailFlag := false }

/-! ### The email-send guard across the loop (claim C5) -/

lemma sendEmailRun_flagAfter_true (args : ToolArgs) (transport : Except String Unit) :
    (sendEmailRun args true transport).flagAfter = true := by
  unfold sendEmailRun
  split
  · rfl
  · split
    · rfl
    · cases transport <;> rfl

lemma invokeTool_flag_true (transport : Except String Unit)
    (other : String → ToolArgs → String) (name : String) (args : ToolArgs) :
    (invokeTool transport other name args true).2 = true := by
  unfold invokeTool
  split
  · exact sendEmailRun_flagAfter_true args transport
  · split <;> rfl

lemma execRegisteredCall_flag_true (transport : Except String Unit)
    (other : String → ToolArgs → String) (messages : List Msg) (tc : ToolCall) :
    (execRegisteredCall transport other messages tc true).2 = true := by
  unfold execRegisteredCall
  dsimp only
  repeat' split
  all_goals exact invokeTool_flag_true ..

lemma execCalls_flag_true (transport : Except String Unit)
    (other : String → ToolArgs → String) (messages : List Msg) :
    ∀ tcs : List ToolCall, (execCalls transport other messages tcs true).2 = true := by
  intro tcs
  induction tcs with
  | nil => rfl
  | cons tc rest ih =>
    unfold execCalls
    split
    · show (execCalls transport other messages rest
        (execRegisteredCall transport other messages tc true).2).2 = true
      rw [execRegisteredCall_flag_true]
      exact ih
    · exact ih

lemma toolExecutionNode_flag_true (transport : Except String Unit)
    (other : String → ToolArgs → String) (messages : List Msg) :
    (toolExecutionNode transport other messages true).2 = true := by
  unfold toolExecutionNode
  split
  next content toolCalls heq =>
    dsimp only
    by_cases h : toolCalls.length > 0
    · rw [if_pos h]
      have hc := execCalls_flag_true transport other messages toolCalls
      by_cases h0 : (execCalls transport other messages toolCalls true).1.length = 0
      · rw [if_pos h0]; exact hc
      · rw [if_neg h0]; exact hc
    · rw [if_neg h]
      simp
  next => rfl

lemma loopRun_flag_mono (oracle : List Msg → String × List ToolCall)
    (transport : Except String Unit) (other : String → ToolArgs → String) :
    ∀ (fuel : Nat) (st : AgentState), st.emailFlag = true →
      (loopRun oracle transport other fuel st).emailFlag = true := by
  intro fuel
  induction fuel with
  | zero => intro st h; exact h
  | succ n ih =>
    intro st h
    unfold loopRun
    dsimp only
    split
    · apply ih
      show (toolExecutionNode transport other _ st.emailFlag).2 = true
      rw [h]
      exact toolExecutionNode_flag_true ..
    · exact h

/-- C5: (i) while the guard flag is set, every `sendEmail` call whose
subject contains "Revised" returns the skip notice without invoking the
transport; (ii) the flag is set after every send that reaches a
succeeding transport; (iii) `runPortfolioAssistant` discards the incoming
flag value — the flag is reset exactly once, at the start, before the
graph runs; (iv) no step of the orchestration loop ever resets the flag
(it is monotone across any number of loop iterations); (v) after a reset
the next such attempt — subject containing "Revised", addressed to the
fixed recipient — does invoke the transport. -/
theorem sendEmail_guard_c5 :
    (∀ (args : ToolArgs) (transport : Except String Unit),
        jsIncludes args.subject "Revised" = true →
          (sendEmailRun args true transport).transportInvoked = false
          ∧ (sendEmailRun args true transport).result =
              "Skipping redundant email. An email has already been sent in this session.")
    ∧ (∀ (args : ToolArgs) (flag : Bool),
        (sendEmailRun args flag (Except.ok ())).transportInvoked = true →
          (sendEmailRun args flag (Except.ok ())).flagAfter = true)
    ∧ (∀ (oracle : List Msg → String × List ToolCall) (transport : Except String Unit)
        (other : String → ToolArgs → String) (fuel : Nat) (userMessage : String)
        (flag₁ flag₂ : Bool),
        runPortfolioAssistant oracle transport other fuel userMessage flag₁
          = runPortfolioAssistant oracle transport other fuel userMessage flag₂
        ∧ runPortfolioAssistant oracle transport other fuel userMessage flag₁
          = loopRun oracle transport other fuel
              { messages := [Msg.user userMessage], emailFlag := false })
    ∧ (∀ (oracle : List Msg → String × List ToolCall) (transport : Except String Unit)
        (other : String → ToolArgs → String) (fuel : Nat) (st : AgentState),
        st.emailFlag = true →
          (loopRun oracle transport other fuel st).emailFlag = true)
    ∧ (∀ (args : ToolArgs) (transport : Except String Unit),
        jsIncludes args.subject "Revised" = true → args.toAddr = secureRecipient →
          (sendEmailRun args false transport).transportInvoked = true) := by
  refine ⟨?_, ?_, fun _ _ _ _ _ _ _ => ⟨rfl, rfl⟩, loopRun_flag_mono, ?_⟩
  · intro args transport h
    unfold sendEmailRun
    rw [if_pos (by rw [h]; rfl)]
    exact ⟨rfl, rfl⟩
  · intro args flag
    unfold sendEmailRun
    split
    · intro h; simp at h
    · split
      · intro h; simp at h
      · intro _; rfl
  · intro args transport h1 h2
    unfold sendEmailRun
    rw [if_neg (by simp), if_neg (by simp [h2])]
    cases transport <;> rfl

/-- Closed witness for `sendEmail_guard_c5`: instantiates the
hypothesis-bearing conjuncts — a "Revised" subject with the flag set is
skipped; a send through a succeeding transport sets the flag; the flag
survives three loop iterations; after a reset, a "Revised" send to the
fixed recipient reaches the transport. -/
theorem sendEmail_guard_c5_witness :
    ((sendEmailRun { subject := "Revised proposal" } true (Except.ok ())).transportInvoked
        = false
      ∧ (sendEmailRun { subject := "Revised proposal" } true (Except.ok ())).result =
          "Skipping redundant email. An email has already been sent in this session.")
    ∧ ((sendEmailRun { toAddr := "robinsingh248142@gmail.com", subject := "Hi" }
        false (Except.ok ())).flagAfter = true)
    ∧ ((loopRun (fun _ => ("done", [])) (Except.ok ()) (fun _ _ => "") 3
        { messages := [Msg.user "m"], emailFlag := true }).emailFlag = true)
    ∧ ((sendEmailRun { toAddr := "robinsingh248142@gmail.com", subject := "Revised proposal" }
        false (Except.ok ())).transportInvoked = true) :=
  ⟨sendEmail_guard_c5.1 { subject := "Revised proposal" } (Except.ok ()) (by decide),
   sendEmail_guard_c5.2.1 { toAddr := "robinsingh248142@gmail.com", subject := "Hi" }
     false (by decide),
   sendEmail_guard_c5.2.2.2.1 (fun _ => ("done", [])) (Except.ok ()) (fun _ _ => "") 3
     { messages := [Msg.user "m"], emailFlag := true } rfl,
   sendEmail_guard_c5.2.2.2.2
     ({ toAddr := "robinsingh248142@gmail.com", subject := "Revised proposal" } : ToolArgs)
     (Except.ok ()) (by decide) rfl⟩

/-! ### Unresolved tool names (claim C7) -/

lemma charsStartWith_append (xs ys : List Char) :
    charsStartWith xs (xs ++ ys) = true := by
  induction xs with
  | nil => rfl
  | cons c cs ih => simp [charsStartWith, ih]

lemma charsContain_of_startWith {pat s : List Char}
    (h : charsStartWith pat s = true) : charsContain pat s = true := by
  cases s with
  | nil => exact h
  | cons c cs => simp [charsContain, h]

lemma charsContain_mid (pat l r : List Char) :
    charsContain pat (l ++ pat ++ r) = true := by
  induction l with
  | nil => exact charsContain_of_startWith (charsStartWith_append pat r)
  | cons c cs ih =>
    show charsContain pat (c :: (cs ++ pat ++ r)) = true
    unfold charsContain
    rw [ih]
    simp

lemma jsIncludes_append_self (a n b : String) : jsIncludes (a ++ n ++ b) n = true := by
  unfold jsIncludes
  rw [String.data_append, String.data_append]
  exact charsContain_mid n.data a.data b.data

/-- C7 fails as stated: for the unregistered name `doesThingX`, the
dispatch produces an error result with the same call id that cites the
unresolved name — but it does not list the catalog of registered tool
names (the registered name `sendEmail`, for one, does not occur in the
error text). -/
theorem toolExecution_unknown_c7_counterexample :
    toolNames.contains "doesThingX" = false
    ∧ toolExecutionNode (Except.ok ()) (fun _ _ => "")
        [Msg.user "hi", Msg.assistant "" [⟨"call_1", "doesThingX", {}⟩]] false
      = ([Msg.toolMsg "Error: Invalid tool request for 'doesThingX'" "call_1"], false)
    ∧ "sendEmail" ∈ toolNames
    ∧ jsIncludes "Error: Invalid tool request for 'doesThingX'" "sendEmail" = false := by
  refine ⟨by decide, by decide, by decide, by decide⟩

/-- C7, amended: for every tool call request naming a tool not in the
registry (with a truthy call id), the dispatch produces exactly the error
tool-result carrying the same call id that cites the unresolved tool name
— without listing the registered names — and the orchestration loop,
after any tool execution, proceeds to a subsequent reasoning step (another
model invocation) rather than terminating the request. -/
theorem toolExecution_unknown_c7 (transport : Except String Unit)
    (other : String → ToolArgs → String) (msgs : List Msg) (c : String)
    (tc : ToolCall) (flag : Bool)
    (hname : toolNames.contains tc.name = false) (hid : jsTruthy tc.id = true) :
    (toolExecutionNode transport other (msgs ++ [Msg.assistant c [tc]]) flag
      = ([Msg.toolMsg
            ("Error: Invalid tool request for '" ++ jsOrStr tc.name "unknown tool" ++ "'")
            tc.id], flag))
    ∧ jsIncludes
        ("Error: Invalid tool request for '" ++ jsOrStr tc.name "unknown tool" ++ "'")
        (jsOrStr tc.name "unknown tool") = true
    ∧ (∀ (oracle : List Msg → String × List ToolCall) (fuel : Nat) (st : AgentState),
        (oracle st.messages).2 ≠ [] →
        loopRun oracle transport other (fuel + 1) st
          = loopRun oracle transport other fuel
              { messages :=
                  (st.messages ++ [Msg.assistant (oracle st.messages).1
                    (oracle st.messages).2])
                  ++ (toolExecutionNode transport other
                      (st.messages ++ [Msg.assistant (oracle st.messages).1
                        (oracle st.messages).2]) st.emailFlag).1
                emailFlag :=
                  (toolExecutionNode transport other
                    (st.messages ++ [Msg.assistant (oracle st.messages).1
                      (oracle st.messages).2]) st.emailFlag).2 }) := by
  refine ⟨?_, jsIncludes_append_self _ _ _, ?_⟩
  · have he : execCalls transport other (msgs ++ [Msg.assistant c [tc]]) [tc] flag
        = ([Msg.toolMsg
            ("Error: Invalid tool request for '" ++ jsOrStr tc.name "unknown tool" ++ "'")
            tc.id], flag) := by
      unfold execCalls
      rw [if_neg (by rw [hname]; exact Bool.false_ne_true)]
      rw [if_pos hid]
      dsimp only [execCalls]
      simp
    unfold toolExecutionNode
    rw [List.getLast?_concat]
    dsimp only
    rw [he, if_pos (show ([tc] : List ToolCall).length > 0 by simp)]
    simp
  · intro oracle fuel st h
    have hd : determineNextStep
        (st.messages ++ [Msg.assistant (oracle st.messages).1 (oracle st.messages).2])
        = true := by
      unfold determineNextStep
      rw [List.getLast?_concat]
      simpa using List.length_pos.2 h
    rw [loopRun]
    dsimp only
    rw [if_pos hd]

/-- Closed witness for `toolExecution_unknown_c7` at the request
`doesThingX` with call id `call_1`. -/
theorem toolExecution_unknown_c7_witness :
    (toolExecutionNode (Except.ok ()) (fun _ _ => "")
        ([Msg.user "hi"] ++ [Msg.assistant "" [⟨"call_1", "doesThingX", {}⟩]]) false
      = ([Msg.toolMsg
            ("Error: Invalid tool request for '" ++ jsOrStr "doesThingX" "unknown tool" ++ "'")
            "call_1"], false))
    ∧ jsIncludes
        ("Error: Invalid tool request for '" ++ jsOrStr "doesThingX" "unknown tool" ++ "'")
        (jsOrStr "doesThingX" "unknown tool") = true :=
  ⟨(toolExecution_unknown_c7 (Except.ok ()) (fun _ _ => "") [Msg.user "hi"] ""
      ⟨"call_1", "doesThingX", {}⟩ false (by decide) (by decide)).1,
   (toolExecution_unknown_c7 (Except.ok ()) (fun _ _ => "") [Msg.user "hi"] ""
      ⟨"call_1", "doesThingX", {}⟩ false (by decide) (by decide)).2.1⟩

/-! ### Proposal enrichment before a proposal email (claim C6) -/

/-- C6: for every `sendEmail` tool call whose subject or body contains
"proposal", when the backward scan finds client requirements in a user
message (so `needsProposalGeneration` holds and no proposal-bearing tool
result is used), the dispatch first invokes the proposal-generation tool —
with the budget and timeline substrings extracted by pattern match, each
defaulting to "Not specified" when absent — and attaches the generated
proposal, client name and project type to the email arguments before
invoking `sendEmail`, producing exactly one tool result with the call's
id. -/
theorem toolExecution_enrich_c6 (transport : Except String Unit)
    (other : String → ToolArgs → String) (msgs : List Msg) (c : String)
    (tc : ToolCall) (flag : Bool)
    (hname : tc.name = "sendEmail")
    (hprop : (jsIncludes tc.args.subject "proposal" ||
        jsIncludes tc.args.body "proposal") = true)
    (hfound : (handleClientRequirements (msgs ++ [Msg.assistant c [tc]])).found = true)
    (hneed : (handleClientRequirements
        (msgs ++ [Msg.assistant c [tc]])).needsProposalGeneration = true) :
    toolExecutionNode transport other (msgs ++ [Msg.assistant c [tc]]) flag =
      (let ci := handleClientRequirements (msgs ++ [Msg.assistant c [tc]])
       let budget := (jsMatchBudget ci.requirements).getD "Not specified"
       let timeline := (jsMatchTimeline ci.requirements).getD "Not specified"
       let proposalResult := generateProjectProposalRun ci.clientName ci.projectType
           ci.requirements budget timeline ci.clientEmail ""
       let enhancedArgs :=
         { tc.args with
           isProposal := true
           clientName := ci.clientName
           projectType := ci.projectType
           proposal := proposalResult }
       let o := sendEmailRun enhancedArgs flag transport
       ([Msg.toolMsg o.result tc.id], o.flagAfter)) := by
  unfold toolExecutionNode
  rw [List.getLast?_concat]
  dsimp only
  rw [if_pos (show ([tc] : List ToolCall).length > 0 by simp)]
  unfold execCalls execRegisteredCall invokeTool
  rw [hname]
  simp only [hprop, hfound, hneed,
    show toolNames.contains "sendEmail" = true from by decide,
    show (("sendEmail" : String) == "sendEmail") = true from by decide,
    show (("sendEmail" : String) == "scheduleMeeting") = false from by decide,
    show (("generateProjectProposal" : String) == "sendEmail") = false from by decide,
    show (("generateProjectProposal" : String) == "generateProjectProposal") = true
      from by decide,
    Bool.true_and, Bool.and_true]
  simp [show ∀ f : Bool, execCalls transport other (msgs ++ [Msg.assistant c [tc]]) [] f
    = ([], f) from fun _ => rfl]

/-- A concrete client-requirements user message for instantiating the
enrichment path: carries a two-word client name, an email address, an
`e-commerce platform` project type, a budget range and a timeline in the
phrasings the source's patterns recognize. -/
def c6Requirements : String :=
  "John Smith is looking for a new e-commerce platform. You can reach him at john.smith@example.com. He has a budget ranging from $10,000 to $20,000 and the timeline for project completion is between 8 to 10 weeks."

/-- A concrete `sendEmail` tool call whose subject contains "proposal". -/
def c6Call : ToolCall :=
  ⟨"call_9", "sendEmail",
    { toAddr := "robinsingh248142@gmail.com", subject := "Your project proposal",
      body := "Please see the attached proposal." }⟩

/-- Closed witness for `toolExecution_enrich_c6` on the concrete
requirements message and proposal email call. -/
theorem toolExecution_enrich_c6_witness :
    toolExecutionNode (Except.ok ()) (fun _ _ => "")
        ([Msg.user c6Requirements] ++ [Msg.assistant "" [c6Call]]) false =
      (let ci := handleClientRequirements
          ([Msg.user c6Requirements] ++ [Msg.assistant "" [c6Call]])
       let budget := (jsMatchBudget ci.requirements).getD "Not specified"
       let timeline := (jsMatchTimeline ci.requirements).getD "Not specified"
       let proposalResult := generateProjectProposalRun ci.clientName ci.projectType
           ci.requirements budget timeline ci.clientEmail ""
       let enhancedArgs :=
         { c6Call.args with
           isProposal := true
           clientName := ci.clientName
           projectType := ci.projectType
           proposal := proposalResult }
       let o := sendEmailRun enhancedArgs false (Except.ok ())
       ([Msg.toolMsg o.result c6Call.id], o.flagAfter)) :=
  toolExecution_enrich_c6 (Except.ok ()) (fun _ _ => "") [Msg.user c6Requirements] ""
    c6Call false (by decide) (by decide) (by decide) (by decide)

/-! ## The in-memory session store and the `/agent` route (`src/server.js`)

`memoryStorage` is a plain object mapping session ids to arrays; it is
modelled as a total function with `[]` as the absent-key default
(`memoryStorage[sessionId] || []`). -/

/-- One stored chat entry `{user, ai, timestamp}`. -/
structure MemChat where
  user : String
  ai : String
  timestamp : Nat
deriving DecidableEq, Repr

/-- `memoryStoreChat(sessionId, userMessage, aiResponse)` of
`src/server.js`: `unshift` the new entry onto that session's array. -/
def memoryStoreChat (store : String → List MemChat) (sessionId userMessage
    aiResponse : String) (timestamp : Nat) : String → List MemChat :=
  fun s =>
    if s = sessionId then
      { user := userMessage, ai := aiResponse, timestamp := timestamp } :: store s
    else store s

/-- `memoryGetChatHistory(sessionId, limit)` of `src/server.js`:
`(memoryStorage[sessionId] || []).slice(0, limit)`. -/
def memoryGetChatHistory (store : String → List MemChat) (sessionId : String)
    (limit : Nat) : List MemChat :=
  (store sessionId).take limit

/-- `n` successive `memoryStoreChat` appends to one session, in the given
(chronological) order. -/
def memoryStoreAll (store : String → List MemChat) (sessionId : String) :
    List MemChat → (String → List MemChat)
  | [] => store
  | chat :: rest =>
    memoryStoreAll
      (memoryStoreChat store sessionId chat.user chat.ai chat.timestamp)
      sessionId rest

lemma memoryStoreAll_apply (sessionId : String) :
    ∀ (ts : List MemChat) (store : String → List MemChat),
      memoryStoreAll store sessionId ts sessionId = ts.reverse ++ store sessionId := by
  intro ts
  induction ts with
  | nil => intro store; rfl
  | cons ch rest ih =>
    intro store
    show memoryStoreAll (memoryStoreChat store sessionId ch.user ch.ai ch.timestamp)
        sessionId rest sessionId = (ch :: rest).reverse ++ store sessionId
    rw [ih, List.reverse_cons, List.append_assoc]
    simp [memoryStoreChat]

lemma memoryStoreAll_apply_ne (sessionId other : String) (hne : other ≠ sessionId) :
    ∀ (ts : List MemChat) (store : String → List MemChat),
      memoryStoreAll store sessionId ts other = store other := by
  intro ts
  induction ts with
  | nil => intro store; rfl
  | cons ch rest ih =>
    intro store
    show memoryStoreAll (memoryStoreChat store sessionId ch.user ch.ai ch.timestamp)
        sessionId rest other = store other
    rw [ih]
    simp [memoryStoreChat, hne]

/-- C9: after `n` appends to a session of the in-memory store, a read
with a given limit returns exactly the `min(n, limit)` most-recent
entries, most recent first (the reverse of the chronological append order,
truncated); a read of a key with no prior appends returns the empty
sequence; appends to one session leave every other key empty. -/
theorem memory_store_c9 (sessionId : String) (ts : List MemChat) (limit : Nat) :
    (memoryGetChatHistory (memoryStoreAll (fun _ => []) sessionId ts) sessionId limit
        = ts.reverse.take limit)
    ∧ (memoryGetChatHistory (memoryStoreAll (fun _ => []) sessionId ts) sessionId
        limit).length = min ts.length limit
    ∧ (∀ (sid : String) (lim : Nat),
        memoryGetChatHistory (fun _ => []) sid lim = [])
    ∧ (∀ other : String, other ≠ sessionId →
        memoryGetChatHistory (memoryStoreAll (fun _ => []) sessionId ts) other limit
          = []) := by
  have h1 : memoryGetChatHistory (memoryStoreAll (fun _ => []) sessionId ts)
      sessionId limit = ts.reverse.take limit := by
    unfold memoryGetChatHistory
    rw [memoryStoreAll_apply]
    simp
  refine ⟨h1, ?_, fun _ _ => by simp [memoryGetChatHistory], ?_⟩
  · rw [h1]
    simp [Nat.min_comm]
  · intro other hne
    unfold memoryGetChatHistory
    rw [memoryStoreAll_apply_ne sessionId other hne]
    simp

/-- Closed witness for `memory_store_c9`: reads back two of three appends
on session `s1`, and finds session `s2` empty. -/
theorem memory_store_c9_witness :
    (memoryGetChatHistory
        (memoryStoreAll (fun _ => []) "s1" [⟨"a", "ra", 1⟩, ⟨"b", "rb", 2⟩, ⟨"c", "rc", 3⟩])
        "s1" 2
      = [⟨"c", "rc", 3⟩, ⟨"b", "rb", 2⟩])
    ∧ memoryGetChatHistory
        (memoryStoreAll (fun _ => []) "s1" [⟨"a", "ra", 1⟩, ⟨"b", "rb", 2⟩, ⟨"c", "rc", 3⟩])
        "s2" 2 = [] :=
  ⟨by
    rw [(memory_store_c9 "s1" [⟨"a", "ra", 1⟩, ⟨"b", "rb", 2⟩, ⟨"c", "rc", 3⟩] 2).1]
    decide,
   (memory_store_c9 "s1" [⟨"a", "ra", 1⟩, ⟨"b", "rb", 2⟩, ⟨"c", "rc", 3⟩] 2).2.2.2 "s2"
     (by decide)⟩

/-! ## The `/agent` route's use of the session store (claim C8)

The Redis client is an external capability: `clientReady` is the
`client && client.isReady` test of `src/server.js`, and the two awaited
store operations are `Except` values — `Except.error` models a rejected
promise.  `storeChat` and `getChatHistory` of `src/redismanagement.js`
contain no `try/catch`, so a rejection inside them propagates to the
route's own `catch`, which answers 500. -/

/-- The external dependencies of one `/agent` request. -/
structure AgentDeps where
  clientReady : Bool
  redisGetHistory : Except String (List MemChat)
  redisStore : Except String Unit
  llmRun : String → String

/-- What the route handler sends: the assistant response, a 400, or the
`catch`-block 500. -/
inductive HttpOutcome where
  | ok (response : String)
  | badRequest (error : String)
  | serverError (error : String)
deriving DecidableEq, Repr

/-- Whether the outcome carries the assistant response. -/
def HttpOutcome.isOk : HttpOutcome → Bool
  | HttpOutcome.ok _ => true
  | _ => false

/-- `history.map(chat => \x60User: ...\x60).join("\n")` of the route. -/
def formatHistory (history : List MemChat) : String :=
  String.intercalate "\n"
    (history.map fun chat => "User: " ++ chat.user ++ "\nAI: " ++ chat.ai)

/-- `app.post("/agent")` of `src/server.js`: session-id check, history
read (Redis when ready, else memory), the assistant invocation, the turn
append (Redis when ready, else memory), and the response; any `Except`
error models a thrown awaited promise and lands in the `catch`, producing
a 500. -/
def agentPost (deps : AgentDeps) (mem : String → List MemChat) (now : Nat)
    (sessionId message : String) : HttpOutcome × (String → List MemChat) :=
  if !(jsTruthy sessionId) then (HttpOutcome.badRequest "Session ID is required", mem)
  else
    let historyE :=
      if deps.clientReady then deps.redisGetHistory
      else Except.ok (memoryGetChatHistory mem sessionId 5)
    match historyE with
    | Except.error e => (HttpOutcome.serverError e, mem)
    | Except.ok history =>
      let formattedHistory := formatHistory history
      let inputWithHistory :=
        "# Previous messages (for context only):\n" ++ formattedHistory ++ "\n\n" ++
          "# New User Message:\nUser: " ++ message ++ "\nAI:"
      let responseText := deps.llmRun inputWithHistory
      let storeE := if deps.clientReady then deps.redisStore else Except.ok ()
      match storeE with
      | Except.error e => (HttpOutcome.serverError e, mem)
      | Except.ok _ =>
        let mem' :=
          if deps.clientReady then mem
          else memoryStoreChat mem sessionId message responseText now
        (HttpOutcome.ok responseText, mem')

/-- C8 fails as stated: with a ready Redis client whose history read
throws (backend failure mid-request), the route answers 500 and the
assistant response is never returned — the store operation does not
degrade to the in-memory fallback. -/
theorem agentPost_store_failure_c8_counterexample :
    (agentPost
      { clientReady := true, redisGetHistory := Except.error "ECONNRESET",
        redisStore := Except.ok (), llmRun := fun _ => "answer" }
      (fun _ => []) 0 "s1" "hello").1 = HttpOutcome.serverError "ECONNRESET"
    ∧ ((agentPost
      { clientReady := true, redisGetHistory := Except.error "ECONNRESET",
        redisStore := Except.ok (), llmRun := fun _ => "answer" }
      (fun _ => []) 0 "s1" "hello").1.isOk = false) := by
  exact ⟨rfl, rfl⟩

/-- C8, amended: the `/agent` route survives backend unavailability only
when the readiness check already routed the request to the in-memory
store: with the client not ready every request (with a truthy session id)
returns the assistant response, and with a ready client the response is
returned when both awaited store operations resolve — but a store
operation that throws while the client is ready propagates to the catch
block and the request fails with a 500 instead of returning the
response. -/
theorem agentPost_store_failure_c8 (deps : AgentDeps)
    (mem : String → List MemChat) (now : Nat) (sessionId message : String)
    (hsid : jsTruthy sessionId = true) :
    (deps.clientReady = false →
      (agentPost deps mem now sessionId message).1.isOk = true)
    ∧ (∀ h : List MemChat, deps.clientReady = true →
        deps.redisGetHistory = Except.ok h → deps.redisStore = Except.ok () →
        (agentPost deps mem now sessionId message).1.isOk = true)
    ∧ (∀ e : String, deps.clientReady = true →
        deps.redisGetHistory = Except.error e →
        (agentPost deps mem now sessionId message).1 = HttpOutcome.serverError e)
    ∧ (∀ (h : List MemChat) (e : String), deps.clientReady = true →
        deps.redisGetHistory = Except.ok h → deps.redisStore = Except.error e →
        (agentPost deps mem now sessionId message).1 = HttpOutcome.serverError e) := by
  refine ⟨?_, ?_, ?_, ?_⟩
  · intro hcr
    unfold agentPost
    rw [if_neg (by rw [hsid]; simp)]
    simp only [hcr, Bool.false_eq_true, if_false]
    rfl
  · intro h hcr hget hstore
    unfold agentPost
    rw [if_neg (by rw [hsid]; simp)]
    simp only [hcr, if_true, hget, hstore]
    rfl
  · intro e hcr hget
    unfold agentPost
    rw [if_neg (by rw [hsid]; simp)]
    simp only [hcr, if_true, hget]
  · intro h e hcr hget hstore
    unfold agentPost
    rw [if_neg (by rw [hsid]; simp)]
    simp only [hcr, if_true, hget, hstore]

/-- Closed witness for `agentPost_store_failure_c8`: a not-ready client
returns the response; a ready client with resolving store operations
returns the response; a ready client whose history read throws yields the
500; a ready client whose read succeeds but whose turn append throws
yields the 500 too. -/
theorem agentPost_store_failure_c8_witness :
    ((agentPost
        { clientReady := false, redisGetHistory := Except.ok [],
          redisStore := Except.ok (), llmRun := fun _ => "a" }
        (fun _ => []) 0 "s1" "m").1.isOk = true)
    ∧ ((agentPost
        { clientReady := true, redisGetHistory := Except.ok [],
          redisStore := Except.ok (), llmRun := fun _ => "a" }
        (fun _ => []) 0 "s1" "m").1.isOk = true)
    ∧ ((agentPost
        { clientReady := true, redisGetHistory := Except.error "timeout",
          redisStore := Except.ok (), llmRun := fun _ => "a" }
        (fun _ => []) 0 "s1" "m").1 = HttpOutcome.serverError "timeout")
    ∧ ((agentPost
        { clientReady := true, redisGetHistory := Except.ok [],
          redisStore := Except.error "WRONGTYPE", llmRun := fun _ => "a" }
        (fun _ => []) 0 "s1" "m").1 = HttpOutcome.serverError "WRONGTYPE") :=
  ⟨(agentPost_store_failure_c8
      { clientReady := false, redisGetHistory := Except.ok [],
        redisStore := Except.ok (), llmRun := fun _ => "a" }
      (fun _ => []) 0 "s1" "m" (by decide)).1 rfl,
   (agentPost_store_failure_c8
      { clientReady := true, redisGetHistory := Except.ok [],
        redisStore := Except.ok (), llmRun := fun _ => "a" }
      (fun _ => []) 0 "s1" "m" (by decide)).2.1 [] rfl rfl rfl,
   (agentPost_store_failure_c8
      { clientReady := true, redisGetHistory := Except.error "timeout",
        redisStore := Except.ok (), llmRun := fun _ => "a" }
      (fun _ => []) 0 "s1" "m" (by decide)).2.2.1 "timeout" rfl rfl,
   (agentPost_store_failure_c8
      { clientReady := true, redisGetHistory := Except.ok [],
        redisStore := Except.error "WRONGTYPE", llmRun := fun _ => "a" }
      (fun _ => []) 0 "s1" "m" (by decide)).2.2.2 [] "WRONGTYPE" rfl rfl rfl⟩

end TestAgent
